import Mathlib

/-
Verification of the configuration-resolution pipeline of the word_cloud
command-line front end (src/wordcloud/wordcloud_cli.py).

The development shallowly embeds the Python code: Python strings are
Lean String values, Python int is Int, raised exceptions are the error
side of Except, and the side effects the specification talks about
(reading the text input, reading the wordlist, decoding the two mask
images) are recorded as an explicit event trace.
-/

set_option autoImplicit false

deriving instance DecidableEq for Except

namespace WordCloudCli

/-- Python whitespace characters recognised by str.strip (ASCII part). -/
def pyIsSpace (c : Char) : Bool :=
  c = ' ' || c = '\t' || c = '\n' || c = '\r' || c = '\x0b' || c = '\x0c'

/-- Embedding of the Python expression line.strip(): remove leading and
trailing whitespace. -/
def pyStrip (s : String) : String :=
  String.mk (((s.data.dropWhile pyIsSpace).reverse.dropWhile pyIsSpace).reverse)

/-- Helper for pySplit: walk the characters, cutting at every separator. -/
def pySplitAux (sep : Char) : List Char → List Char → List String
  | [], acc => [String.mk acc.reverse]
  | c :: rest, acc =>
    if c = sep then String.mk acc.reverse :: pySplitAux sep rest []
    else pySplitAux sep rest (c :: acc)

/-- Embedding of the Python expression s.split(sep) for a one-character
separator, as used in line.split(char-semicolon) at wordcloud_cli.py:149. -/
def pySplit (sep : Char) (s : String) : List String :=
  pySplitAux sep s.data []

/-- Embedding of Python text-file line iteration (for line in file):
the content is cut at every newline, and a trailing newline produces no
final empty line. -/
def pyLines (s : String) : List String :=
  let parts := pySplit '\n' s
  if parts.getLast? = some "" then parts.dropLast else parts

/-- Helper for pyDigits: after one digit has been read, Python allows
further digits with single underscores between digits. -/
def pyDigitsAux : List Char → Nat → Option Nat
  | [], acc => some acc
  | '_' :: c :: rest, acc =>
    if c.isDigit then pyDigitsAux rest (acc * 10 + (c.toNat - 48)) else none
  | c :: rest, acc =>
    if c.isDigit then pyDigitsAux rest (acc * 10 + (c.toNat - 48)) else none

/-- Digit-run parser backing pyInt: at least one digit, underscores only
between digits. -/
def pyDigits : List Char → Option Nat
  | [] => none
  | c :: rest => if c.isDigit then pyDigitsAux rest (c.toNat - 48) else none

/-- Embedding of the Python call int(s) at wordcloud_cli.py:150: strip
surrounding whitespace, allow one optional sign, then a digit run; none
models the ValueError raised on any other shape. -/
def pyInt (s : String) : Option Int :=
  if (pyStrip s).data.head? = some '+' then
    (pyDigits (pyStrip s).data.tail).map (fun n => (n : Int))
  else if (pyStrip s).data.head? = some '-' then
    (pyDigits (pyStrip s).data.tail).map (fun n => -(n : Int))
  else
    (pyDigits (pyStrip s).data).map (fun n => (n : Int))

/-- Python repr of a short string value, as interpolated by %r and by the
int() error message (adequate for strings without quotes or escapes). -/
def pyRepr (s : String) : String := "\x27" ++ s ++ "\x27"

/-- The Python exceptions the embedded code can raise. -/
inductive PyErr where
  | valueError (msg : String)
  | indexError (msg : String)
  | argumentTypeError (msg : String)
  deriving DecidableEq

/-- Embedding of the wordlist reading loop at wordcloud_cli.py:146-150:
for each line, strip it, skip it when empty, split on the semicolon,
access fields 0 and 1 (IndexError when field 1 is missing) and parse
field 1 with int() (ValueError on failure). Pairs are accumulated in
order; the first failing line aborts the whole run. -/
def parseLines : List String → Except PyErr (List (String × Int))
  | [] => .ok []
  | l :: ls =>
    let s := pyStrip l
    if s = "" then parseLines ls
    else
      match pySplit ';' s with
      | [] => .error (.indexError "list index out of range")
      | [_] => .error (.indexError "list index out of range")
      | w :: c :: _ =>
        match pyInt c with
        | none =>
          .error (.valueError ("invalid literal for int() with base 10: " ++ pyRepr c))
        | some n => (parseLines ls).map (fun rest => (w, n) :: rest)

/-- Wordlist parsing on a whole stream content: iterate the lines of the
file through the loop of wordcloud_cli.py:146-150. -/
def parseWordlist (content : String) : Except PyErr (List (String × Int)) :=
  parseLines (pyLines content)

/-- One step of Python dict construction: update the value in place when
the key is already bound, otherwise append the pair at the end. -/
def dictInsert : List (String × Int) → String → Int → List (String × Int)
  | [], k, v => [(k, v)]
  | (k0, v0) :: t, k, v =>
    if k0 = k then (k0, v) :: t else (k0, v0) :: dictInsert t k v

/-- Fold of dictInsert over a pair list, left to right. -/
def pyDictAux : List (String × Int) → List (String × Int) → List (String × Int)
  | acc, [] => acc
  | acc, (k, v) :: t => pyDictAux (dictInsert acc k v) t

/-- Embedding of the Python call dict(wordlist) at wordcloud_cli.py:151:
an association list with unique keys, first-occurrence order, and the
last value for every duplicated key. -/
def pyDict (l : List (String × Int)) : List (String × Int) :=
  pyDictAux [] l

/-- Combination of wordlist parsing and dict construction, the value
stored into args.wordlist at wordcloud_cli.py:151. -/
def resolveWordlist (content : String) : Except PyErr (List (String × Int)) :=
  (parseWordlist content).map pyDict

/-- First-biased choice on optional integers, used to state the lookup
behaviour of pyDict. -/
def optOr : Option Int → Option Int → Option Int
  | some x, _ => some x
  | none, y => y

/-- Key list of an association list. -/
def keys (l : List (String × Int)) : List String :=
  l.map Prod.fst

/-- Decidable success condition for one wordlist line: blank after
stripping, or at least two semicolon fields with an int-parseable second
field. Used to characterise when parseLines succeeds. -/
def lineOkB (l : String) : Bool :=
  let s := pyStrip l
  if s = "" then true
  else
    match pySplit ';' s with
    | _ :: c :: _ => (pyInt c).isSome
    | _ => false

/-- Decidable condition that the count field of a wordlist line does not
begin with a minus sign once stripped (blank lines and lines without a
second field pass vacuously). -/
def countNoMinusB (l : String) : Bool :=
  let s := pyStrip l
  if s = "" then true
  else
    match pySplit ';' s with
    | _ :: c :: _ => !((pyStrip c).data.head? == some '-')
    | _ => true

/-- The observable resource events of the resolution pipeline that the
specification reasons about: reading the text input, reading the
wordlist, and decoding the two mask images with Image.open. -/
inductive Ev where
  | readText
  | readWordlist
  | openMaskImage
  | openColormaskImage
  deriving DecidableEq

/-- The color strategy produced by the resolver, a tagged union of the
three alternatives built at wordcloud_cli.py:166-172. -/
inductive ColorFunc where
  | random
  | imageSampled (path : String)
  | fixed (color : String)
  deriving DecidableEq

/-- The input half of the resolved configuration: raw text or an
explicit frequency mapping, never both. -/
inductive InputSource where
  | text (s : String)
  | frequencies (m : List (String × Int))
  deriving DecidableEq

/-- The argparse namespace right after parser.parse_args(arguments) at
wordcloud_cli.py:137. File-typed options are modelled by the content of
the already-opened stream (text, wordlist, stopwords) or by the path of
the opened binary file (mask, colormask); color is None when the flag is
absent and the given string (possibly empty) otherwise. -/
structure RawArgs where
  text : String
  wordlist : Option String
  stopwords : Option String
  mask : Option String
  colormask : Option String
  color : Option String
  background_color : String
  colormode : String
  no_collocations : Bool
  width : Int
  height : Int
  margin : Int
  font_path : Option String
  deriving DecidableEq

/-- The configuration assembled by parse_args and consumed by main. -/
structure ResolvedConfig where
  input : InputSource
  background_color : String
  stopwords : Option (List String)
  mask : Option String
  collocations : Bool
  colormode : String
  color_func : ColorFunc
  width : Int
  height : Int
  margin : Int
  font_path : Option String
  deriving DecidableEq

/-- Python truthiness of an optional string: None and the empty string
are falsy, every other string is truthy. -/
def pyTruthyOptStr : Option String → Bool
  | none => false
  | some s => !(s == "")

/-- The guard of the mutual-exclusion check at wordcloud_cli.py:139:
args.colormask is an open file object (truthy exactly when present) and
args.color is a string or None (truthy exactly when a nonempty string). -/
def colorConflict (a : RawArgs) : Bool :=
  a.colormask.isSome && pyTruthyOptStr a.color

/-- Embedding of wordcloud_cli.py:166-172: start from the random color
function, replace it by the image-sampled one when a colormask is
present, then by the fixed one when the color string is truthy. -/
def resolveColorFunc (a : RawArgs) : ColorFunc :=
  let cf :=
    match a.colormask with
    | some p => ColorFunc.imageSampled p
    | none => ColorFunc.random
  match a.color with
  | some c => if c = "" then cf else ColorFunc.fixed c
  | none => cf

/-- Deduplication keeping first occurrences, standing in for Python set
construction over the stopword lines. -/
def listDedup (l : List String) : List String :=
  l.foldl (fun acc s => if s ∈ acc then acc else acc ++ [s]) []

/-- The fields of the configuration that parse_args computes after the
input mode has been decided: background normalization (lines 156-157),
stopword reading (lines 159-161), mask pass-through (lines 163-164),
color strategy (lines 166-172) and the collocations flag (line 174). -/
def finishConfig (a : RawArgs) (inp : InputSource) : ResolvedConfig :=
  { input := inp
    background_color :=
      if a.background_color = "None" || a.background_color = "none" then "#ffffff00"
      else a.background_color
    stopwords := a.stopwords.map (fun s => listDedup ((pyLines s).map pyStrip))
    mask := a.mask
    collocations := !a.no_collocations
    colormode := a.colormode
    color_func := resolveColorFunc a
    width := a.width
    height := a.height
    margin := a.margin
    font_path := a.font_path }

/-- Mask decoding event of wordcloud_cli.py:163-164. -/
def maskEvents (a : RawArgs) : List Ev :=
  if a.mask.isSome then [Ev.openMaskImage] else []

/-- Colormask decoding event of wordcloud_cli.py:167-169. -/
def colormaskEvents (a : RawArgs) : List Ev :=
  if a.colormask.isSome then [Ev.openColormaskImage] else []

/-- Embedding of the resolution part of parse_args (wordcloud_cli.py
lines 139-177), together with the trace of resource events in program
order: the exclusivity check runs first; then either the wordlist is
read and parsed or the text stream is read; then the remaining fields
are filled, decoding the placement mask before the color mask. -/
def resolveArgsEv (a : RawArgs) : Except PyErr ResolvedConfig × List Ev :=
  if colorConflict a then
    (.error (.valueError "specify either a color mask or a color function"), [])
  else
    match a.wordlist with
    | some wl =>
      match parseWordlist wl with
      | .error e => (.error e, [Ev.readWordlist])
      | .ok pairs =>
        (.ok (finishConfig a (InputSource.frequencies (pyDict pairs))),
          Ev.readWordlist :: (maskEvents a ++ colormaskEvents a))
    | none =>
      (.ok (finishConfig a (InputSource.text a.text)),
        Ev.readText :: (maskEvents a ++ colormaskEvents a))

/-- The streams FileType.__call__ can return. -/
inductive PyStream where
  | stdin
  | stdout
  | file (path : String) (mode : String)
  deriving DecidableEq

/-- Abstract file system used by the FileType embedding: which paths can
be opened, and the OS error text attached to the ones that cannot. -/
structure FS where
  openable : String → Bool
  oserror : String → String

/-- Embedding of FileType.__call__ (wordcloud_cli.py:37-53): the dash
resolves to stdin when the mode contains the character r, else to stdout
when it contains w, else a ValueError naming the mode is raised; any
other string is opened as a path, turning an IOError into an
argparse.ArgumentTypeError. -/
def fileTypeCall (fs : FS) (mode : String) (string : String) : Except PyErr PyStream :=
  if string = "-" then
    if mode.data.contains 'r' then .ok PyStream.stdin
    else if mode.data.contains 'w' then .ok PyStream.stdout
    else .error (.valueError ("argument \"-\" with mode " ++ pyRepr mode))
  else if fs.openable string then .ok (PyStream.file string mode)
  else .error (.argumentTypeError ("can\x27t open \x27" ++ string ++ "\x27: " ++ fs.oserror string))

/-- A baseline argparse namespace with every default of the parser
declaration (text defaulting to stdin content, background black,
colormode RGB, width 400, height 200, margin 2). -/
def baseArgs : RawArgs :=
  { text := "the quick brown fox"
    wordlist := none
    stopwords := none
    mask := none
    colormask := none
    color := none
    background_color := "black"
    colormode := "RGB"
    no_collocations := false
    width := 400
    height := 200
    margin := 2
    font_path := none }

/-- A file system on which every path opens, for concrete witnesses. -/
def fsAll : FS :=
  { openable := fun _ => true
    oserror := fun _ => "No such file or directory" }

/-- Namespace with both a colormask and a nonempty fixed color. -/
def argsConflict : RawArgs := { baseArgs with colormask := some "cm.png", color := some "red" }

/-- Namespace with a wordlist next to the default text input. -/
def argsWordlist : RawArgs := { baseArgs with wordlist := some "a;3" }

/-- Namespace with background color given as the literal None. -/
def argsBgNone : RawArgs := { baseArgs with background_color := "None" }

/-- Namespace with the no-collocations flag present. -/
def argsNoColl : RawArgs := { baseArgs with no_collocations := true }

/-- Namespace with a colormask and an empty fixed color string. -/
def argsEmptyColor : RawArgs := { baseArgs with colormask := some "cm.png", color := some "" }

/-- Keys of a cons cell. -/
theorem keys_cons (a : String) (b : Int) (l : List (String × Int)) :
    keys ((a, b) :: l) = a :: keys l := rfl

/-- Lookup in a dictInsert result: the inserted key maps to the new
value, every other key is unchanged. -/
theorem lookup_dictInsert (acc : List (String × Int)) (k : String) (v : Int) (q : String) :
    List.lookup q (dictInsert acc k v) = if q = k then some v else List.lookup q acc := by
  induction acc with
  | nil =>
    by_cases hq : q = k
    · subst hq; simp [dictInsert, List.lookup]
    · simp [dictInsert, List.lookup, beq_false_of_ne hq, hq]
  | cons hd t ih =>
    obtain ⟨k0, v0⟩ := hd
    by_cases hk : k0 = k
    · subst hk
      by_cases hq : q = k0
      · subst hq; simp [dictInsert, List.lookup]
      · simp [dictInsert, List.lookup, beq_false_of_ne hq, hq]
    · by_cases hq : q = k0
      · have hqk : ¬ q = k := by rw [hq]; exact hk
        simp [dictInsert, hk, List.lookup, hq, hqk]
      · simp [dictInsert, hk, List.lookup, beq_false_of_ne hq, ih]

/-- Lookup distributes over append, first list first. -/
theorem lookup_append (xs ys : List (String × Int)) (q : String) :
    List.lookup q (xs ++ ys) = optOr (List.lookup q xs) (List.lookup q ys) := by
  induction xs with
  | nil => simp [List.lookup, optOr]
  | cons hd t ih =>
    obtain ⟨k0, v0⟩ := hd
    by_cases hq : q = k0
    · subst hq; simp [List.lookup, optOr]
    · simp [List.lookup, beq_false_of_ne hq, ih]

/-- optOr with none on the right is the identity. -/
theorem optOr_none (x : Option Int) : optOr x none = x := by
  cases x <;> rfl

/-- optOr is associative. -/
theorem optOr_assoc (x y z : Option Int) : optOr (optOr x y) z = optOr x (optOr y z) := by
  cases x <;> cases y <;> rfl

/-- Lookup in the dict built by pyDictAux: the latest binding in the
pair list wins, falling back to the accumulator. -/
theorem lookup_pyDictAux (l : List (String × Int)) (acc : List (String × Int)) (q : String) :
    List.lookup q (pyDictAux acc l) = optOr (List.lookup q l.reverse) (List.lookup q acc) := by
  induction l generalizing acc with
  | nil => simp [pyDictAux, List.lookup, optOr]
  | cons hd t ih =>
    obtain ⟨k, v⟩ := hd
    rw [pyDictAux, ih, List.reverse_cons, lookup_append, optOr_assoc]
    congr 1
    rw [lookup_dictInsert]
    by_cases hq : q = k
    · subst hq; simp [List.lookup, optOr]
    · simp [List.lookup, beq_false_of_ne hq, hq, optOr]

/-- Membership in the keys of a dictInsert result comes from the old
keys or from the inserted key. -/
theorem mem_keys_dictInsert (acc : List (String × Int)) (k : String) (v : Int) (q : String)
    (h : q ∈ keys (dictInsert acc k v)) : q ∈ keys acc ∨ q = k := by
  induction acc with
  | nil =>
    refine Or.inr ?_
    rw [show dictInsert [] k v = [(k, v)] from rfl, keys_cons] at h
    simpa [keys] using h
  | cons hd t ih =>
    obtain ⟨k0, v0⟩ := hd
    by_cases hk : k0 = k
    · subst hk
      rw [show dictInsert ((k0, v0) :: t) k0 v = (k0, v) :: t from by simp [dictInsert],
        keys_cons] at h
      exact Or.inl (by rw [keys_cons]; exact h)
    · rw [show dictInsert ((k0, v0) :: t) k v = (k0, v0) :: dictInsert t k v from by
        simp [dictInsert, hk], keys_cons] at h
      rcases List.mem_cons.mp h with h1 | h1
      · exact Or.inl (by rw [keys_cons, h1]; exact List.mem_cons_self _ _)
      · rcases ih h1 with h2 | h2
        · exact Or.inl (by rw [keys_cons]; exact List.mem_cons_of_mem _ h2)
        · exact Or.inr h2

/-- dictInsert preserves uniqueness of keys. -/
theorem nodup_keys_dictInsert (acc : List (String × Int)) (k : String) (v : Int)
    (h : (keys acc).Nodup) : (keys (dictInsert acc k v)).Nodup := by
  induction acc with
  | nil => simp [dictInsert, keys]
  | cons hd t ih =>
    obtain ⟨k0, v0⟩ := hd
    rw [keys_cons, List.nodup_cons] at h
    obtain ⟨h1, h2⟩ := h
    by_cases hk : k0 = k
    · subst hk
      rw [show dictInsert ((k0, v0) :: t) k0 v = (k0, v) :: t from by simp [dictInsert],
        keys_cons, List.nodup_cons]
      exact ⟨h1, h2⟩
    · rw [show dictInsert ((k0, v0) :: t) k v = (k0, v0) :: dictInsert t k v from by
        simp [dictInsert, hk], keys_cons, List.nodup_cons]
      refine ⟨fun hmem => ?_, ih h2⟩
      rcases mem_keys_dictInsert t k v k0 hmem with h3 | h3
      · exact h1 h3
      · exact hk h3

/-- pyDictAux preserves uniqueness of keys. -/
theorem nodup_keys_pyDictAux (l : List (String × Int)) (acc : List (String × Int))
    (h : (keys acc).Nodup) : (keys (pyDictAux acc l)).Nodup := by
  induction l generalizing acc with
  | nil => simpa [pyDictAux] using h
  | cons hd t ih =>
    obtain ⟨k, v⟩ := hd
    exact ih _ (nodup_keys_dictInsert acc k v h)

/-- Every pair of a dictInsert result is an old pair or the inserted one. -/
theorem mem_dictInsert (acc : List (String × Int)) (k : String) (v : Int) (p : String × Int)
    (h : p ∈ dictInsert acc k v) : p ∈ acc ∨ p = (k, v) := by
  induction acc with
  | nil => exact Or.inr (by simpa [dictInsert] using h)
  | cons hd t ih =>
    obtain ⟨k0, v0⟩ := hd
    by_cases hk : k0 = k
    · subst hk
      rw [show dictInsert ((k0, v0) :: t) k0 v = (k0, v) :: t from by simp [dictInsert]] at h
      rcases List.mem_cons.mp h with h1 | h1
      · exact Or.inr h1
      · exact Or.inl (List.mem_cons_of_mem _ h1)
    · rw [show dictInsert ((k0, v0) :: t) k v = (k0, v0) :: dictInsert t k v from by
        simp [dictInsert, hk]] at h
      rcases List.mem_cons.mp h with h1 | h1
      · exact Or.inl (by rw [h1]; exact List.mem_cons_self _ _)
      · rcases ih h1 with h2 | h2
        · exact Or.inl (List.mem_cons_of_mem _ h2)
        · exact Or.inr h2

/-- Every pair of a pyDictAux result is an accumulator pair or an input pair. -/
theorem mem_pyDictAux (l : List (String × Int)) (acc : List (String × Int)) (p : String × Int)
    (h : p ∈ pyDictAux acc l) : p ∈ acc ∨ p ∈ l := by
  induction l generalizing acc with
  | nil => exact Or.inl (by simpa [pyDictAux] using h)
  | cons hd t ih =>
    obtain ⟨k, v⟩ := hd
    rw [pyDictAux] at h
    rcases ih _ h with h1 | h1
    · rcases mem_dictInsert acc k v p h1 with h2 | h2
      · exact Or.inl h2
      · exact Or.inr (by rw [h2]; exact List.mem_cons_self _ _)
    · exact Or.inr (List.mem_cons_of_mem _ h1)

/-- Every pair of the built dict is one of the parsed pairs. -/
theorem mem_pyDict (l : List (String × Int)) (p : String × Int) (h : p ∈ pyDict l) :
    p ∈ l := by
  rcases mem_pyDictAux l [] p h with h1 | h1
  · exact absurd h1 (List.not_mem_nil p)
  · exact h1

/-- pyInt results are non-negative when the stripped field does not start
with a minus sign. -/
theorem pyInt_nonneg (s : String) (n : Int) (h : pyInt s = some n)
    (h2 : (pyStrip s).data.head? ≠ some '-') : 0 ≤ n := by
  unfold pyInt at h
  by_cases h1 : (pyStrip s).data.head? = some '+'
  · rw [if_pos h1] at h
    cases hd : pyDigits (pyStrip s).data.tail with
    | none => rw [hd] at h; simp at h
    | some m => rw [hd] at h; simp at h; omega
  · rw [if_neg h1, if_neg h2] at h
    cases hd : pyDigits (pyStrip s).data with
    | none => rw [hd] at h; simp at h
    | some m => rw [hd] at h; simp at h; omega

/-- Every pair produced by parseLines has a non-negative count when no
count field starts with a minus sign. -/
theorem parseLines_nonneg (ls : List String) (pairs : List (String × Int))
    (h : parseLines ls = Except.ok pairs) (hn : ∀ l ∈ ls, countNoMinusB l = true) :
    ∀ p ∈ pairs, 0 ≤ p.2 := by
  induction ls generalizing pairs with
  | nil =>
    simp only [parseLines, Except.ok.injEq] at h
    subst h
    intro p hp
    exact absurd hp (List.not_mem_nil p)
  | cons l t ih =>
    by_cases hb : pyStrip l = ""
    · simp only [parseLines, if_pos hb] at h
      exact ih pairs h (fun x hx => hn x (List.mem_cons_of_mem _ hx))
    · cases hsp : pySplit ';' (pyStrip l) with
      | nil =>
        simp only [parseLines, if_neg hb, hsp] at h
        exact Except.noConfusion h
      | cons w rest =>
        cases rest with
        | nil =>
          simp only [parseLines, if_neg hb, hsp] at h
          exact Except.noConfusion h
        | cons c rest2 =>
          cases hi : pyInt c with
          | none =>
            simp only [parseLines, if_neg hb, hsp, hi] at h
            exact Except.noConfusion h
          | some n =>
            cases hpt : parseLines t with
            | error e =>
              simp only [parseLines, if_neg hb, hsp, hi, hpt, Except.map] at h
              exact Except.noConfusion h
            | ok ps =>
              simp only [parseLines, if_neg hb, hsp, hi, hpt, Except.map,
                Except.ok.injEq] at h
              subst h
              have hcm := hn l (List.mem_cons_self _ _)
              simp only [countNoMinusB, if_neg hb, hsp] at hcm
              have hhd : ((pyStrip c).data.head? == some '-') = false := by
                simpa using hcm
              intro p hp
              rcases List.mem_cons.mp hp with h1 | h1
              · rw [h1]
                exact pyInt_nonneg c n hi (ne_of_beq_false hhd)
              · exact ih ps hpt (fun x hx => hn x (List.mem_cons_of_mem _ hx)) p h1

/-- parseLines succeeds exactly when every line is blank or has at least
two semicolon fields with an int-parseable second field. -/
theorem parseLines_ok_iff (ls : List String) :
    (∃ pairs, parseLines ls = Except.ok pairs) ↔ ∀ l ∈ ls, lineOkB l = true := by
  induction ls with
  | nil => simp [parseLines]
  | cons l t ih =>
    constructor
    · rintro ⟨pairs, h⟩ x hx
      by_cases hb : pyStrip l = ""
      · simp only [parseLines, if_pos hb] at h
        rcases List.mem_cons.mp hx with h1 | h1
        · rw [h1]; simp [lineOkB, hb]
        · exact ih.mp ⟨pairs, h⟩ x h1
      · cases hsp : pySplit ';' (pyStrip l) with
        | nil =>
          simp only [parseLines, if_neg hb, hsp] at h
          exact Except.noConfusion h
        | cons w rest =>
          cases rest with
          | nil =>
            simp only [parseLines, if_neg hb, hsp] at h
            exact Except.noConfusion h
          | cons c rest2 =>
            cases hi : pyInt c with
            | none =>
              simp only [parseLines, if_neg hb, hsp, hi] at h
              exact Except.noConfusion h
            | some n =>
              rcases List.mem_cons.mp hx with h1 | h1
              · rw [h1]
                simp [lineOkB, if_neg hb, hsp, hi]
              · cases hpt : parseLines t with
                | error e =>
                  simp only [parseLines, if_neg hb, hsp, hi, hpt, Except.map] at h
                  exact Except.noConfusion h
                | ok ps => exact ih.mp ⟨ps, hpt⟩ x h1
    · intro hall
      have hl := hall l (List.mem_cons_self _ _)
      obtain ⟨ps, hps⟩ := ih.mpr (fun x hx => hall x (List.mem_cons_of_mem _ hx))
      by_cases hb : pyStrip l = ""
      · refine ⟨ps, ?_⟩
        simp only [parseLines, if_pos hb]
        exact hps
      · cases hsp : pySplit ';' (pyStrip l) with
        | nil => simp [lineOkB, if_neg hb, hsp] at hl
        | cons w rest =>
          cases rest with
          | nil => simp [lineOkB, if_neg hb, hsp] at hl
          | cons c rest2 =>
            have hl2 : (pyInt c).isSome = true := by
              simpa [lineOkB, if_neg hb, hsp] using hl
            obtain ⟨n, hn⟩ := Option.isSome_iff_exists.mp hl2
            refine ⟨(w, n) :: ps, ?_⟩
            simp only [parseLines, if_neg hb, hsp, hn, hps, Except.map]

/-- Shape of a successful resolution: the configuration is finishConfig
applied to the chosen input source. -/
theorem resolveOkShape (a : RawArgs) (cfg : ResolvedConfig)
    (h : (resolveArgsEv a).1 = Except.ok cfg) : ∃ inp, cfg = finishConfig a inp := by
  by_cases hc : colorConflict a = true
  · simp only [resolveArgsEv, if_pos hc] at h
    exact Except.noConfusion h
  · cases hw : a.wordlist with
    | none =>
      simp only [resolveArgsEv, if_neg hc, hw, Except.ok.injEq] at h
      exact ⟨_, h.symm⟩
    | some wl =>
      cases hp : parseWordlist wl with
      | error e =>
        simp only [resolveArgsEv, if_neg hc, hw, hp] at h
        exact Except.noConfusion h
      | ok pairs =>
        simp only [resolveArgsEv, if_neg hc, hw, hp, Except.ok.injEq] at h
        exact ⟨_, h.symm⟩

/-- Claim C1: when both a fixed (nonempty) color and a colormask are
supplied, resolution fails with exactly the message specified at
wordcloud_cli.py:140, the event trace is empty (so no image resource is
opened and nothing is read), and no configuration is produced. -/
theorem c1_color_exclusivity (a : RawArgs) (p c : String)
    (hm : a.colormask = some p) (hc : a.color = some c) (hne : c ≠ "") :
    resolveArgsEv a
      = (Except.error (PyErr.valueError "specify either a color mask or a color function"),
         []) := by
  have h : colorConflict a = true := by
    simp [colorConflict, hm, hc, pyTruthyOptStr, hne]
  simp only [resolveArgsEv, if_pos h]

/-- Concrete instance of claim C1 at a namespace supplying both options. -/
theorem c1_color_exclusivity_witness :
    argsConflict.colormask = some "cm.png" ∧
    resolveArgsEv argsConflict
      = (Except.error (PyErr.valueError "specify either a color mask or a color function"),
         []) :=
  ⟨rfl, c1_color_exclusivity argsConflict "cm.png" "red" rfl rfl (by decide)⟩

/-- Claim C2: whenever a wordlist is supplied, the text resource is never
read (no readText event) and any successfully resolved configuration
carries the frequencies parsed from the wordlist, with the frequencies
alternative of the input selected. -/
theorem c2_wordlist_precedence (a : RawArgs) (wl : String) (hw : a.wordlist = some wl) :
    Ev.readText ∉ (resolveArgsEv a).2 ∧
    ∀ cfg, (resolveArgsEv a).1 = Except.ok cfg →
      ∃ pairs, parseWordlist wl = Except.ok pairs ∧
        cfg.input = InputSource.frequencies (pyDict pairs) := by
  constructor
  · by_cases hc : colorConflict a = true
    · simp [resolveArgsEv, if_pos hc]
    · cases hp : parseWordlist wl with
      | error e => simp [resolveArgsEv, if_neg hc, hw, hp]
      | ok pairs =>
        by_cases hm : a.mask.isSome <;> by_cases hcm : a.colormask.isSome <;>
          simp [resolveArgsEv, if_neg hc, hw, hp, maskEvents, colormaskEvents, hm, hcm]
  · intro cfg hcfg
    by_cases hc : colorConflict a = true
    · simp only [resolveArgsEv, if_pos hc] at hcfg
      exact Except.noConfusion hcfg
    · cases hp : parseWordlist wl with
      | error e =>
        simp only [resolveArgsEv, if_neg hc, hw, hp] at hcfg
        exact Except.noConfusion hcfg
      | ok pairs =>
        simp only [resolveArgsEv, if_neg hc, hw, hp, Except.ok.injEq] at hcfg
        exact ⟨pairs, rfl, by rw [← hcfg]; rfl⟩

/-- Concrete instance of claim C2: wordlist and text both supplied. -/
theorem c2_wordlist_precedence_witness :
    argsWordlist.wordlist = some "a;3" ∧
    (Ev.readText ∉ (resolveArgsEv argsWordlist).2 ∧
      ∀ cfg, (resolveArgsEv argsWordlist).1 = Except.ok cfg →
        ∃ pairs, parseWordlist "a;3" = Except.ok pairs ∧
          cfg.input = InputSource.frequencies (pyDict pairs)) :=
  ⟨rfl, c2_wordlist_precedence argsWordlist "a;3" rfl⟩

/-- Claim C3 counterexample: a line splitting into three fields does not
fail; the extra field is silently ignored, refuting the requirement of
exactly two fields. -/
theorem c3_exactly_two_fields_counterexample :
    pySplit ';' "a;1;2" = ["a", "1", "2"] ∧
    parseWordlist "a;1;2" = Except.ok [("a", 1)] := by decide

/-- Claim C3 as amended: parsing succeeds exactly when every nonblank
trimmed line splits into at least two semicolon fields whose second
field parses as an integer (fields past the second are ignored); any
offending line fails the whole operation, leaving no partial result. -/
theorem c3_success_iff (content : String) :
    (∃ pairs, parseWordlist content = Except.ok pairs) ↔
      ∀ l ∈ pyLines content, lineOkB l = true :=
  parseLines_ok_iff (pyLines content)

/-- Concrete instance of claim C3: both directions at sample inputs. -/
theorem c3_success_iff_witness :
    (∃ pairs, parseWordlist "a;3\nb;5" = Except.ok pairs) ∧
    ¬ (∃ pairs, parseWordlist "a;3\nbad" = Except.ok pairs) :=
  ⟨(c3_success_iff "a;3\nb;5").mpr (by decide),
   fun hex => by
    have := (c3_success_iff "a;3\nbad").mp hex "bad" (by decide)
    exact absurd this (by decide)⟩

/-- Claim C4 counterexample: the word field keeps inner whitespace next
to the separator, so fields are not trimmed before use. -/
theorem c4_fields_trimmed_counterexample :
    resolveWordlist "a ;3" = Except.ok [("a ", 3)] ∧ ("a " : String) ≠ "a" := by decide

/-- Claim C4 as amended: the sample stream parses to the expected
mapping with blank lines skipped; the count field tolerates surrounding
whitespace because int parsing ignores it, while the word field is used
verbatim after only whole-line trimming. -/
theorem c4_sample_parse :
    resolveWordlist "a;3\nb;5\n\nc;1" = Except.ok [("a", 3), ("b", 5), ("c", 1)] ∧
    resolveWordlist "a; 3" = Except.ok [("a", 3)] := by decide

/-- Claim C5: the mapping built from any successfully parsed wordlist
has pairwise distinct words, and each word maps to the count of its last
occurrence in the parsed pair list. -/
theorem c5_last_wins (content : String) (pairs : List (String × Int))
    (h : parseWordlist content = Except.ok pairs) :
    (keys (pyDict pairs)).Nodup ∧
    ∀ q, List.lookup q (pyDict pairs) = List.lookup q pairs.reverse := by
  refine ⟨nodup_keys_pyDictAux pairs [] (by simp [keys]), fun q => ?_⟩
  rw [pyDict, lookup_pyDictAux]
  simp [List.lookup, optOr_none]

/-- Concrete instance of claim C5 at the duplicate-key sample. -/
theorem c5_last_wins_witness :
    parseWordlist "a;1\na;9" = Except.ok [("a", 1), ("a", 9)] ∧
    resolveWordlist "a;1\na;9" = Except.ok [("a", 9)] ∧
    (keys (pyDict [("a", 1), ("a", 9)])).Nodup ∧
    List.lookup "a" (pyDict [("a", 1), ("a", 9)])
      = List.lookup "a" ([("a", 1), ("a", 9)] : List (String × Int)).reverse :=
  ⟨by decide, by decide, (c5_last_wins "a;1\na;9" _ (by decide)).1,
   (c5_last_wins "a;1\na;9" _ (by decide)).2 "a"⟩

/-- Claim C6: in every successfully resolved configuration the
background color is the transparent sentinel exactly when the argument
was the literal None or none (case-sensitively), is passed through
unmodified otherwise, and is never one of those two literals. -/
theorem c6_background_normalization (a : RawArgs) (cfg : ResolvedConfig)
    (h : (resolveArgsEv a).1 = Except.ok cfg) :
    ((a.background_color = "None" ∨ a.background_color = "none") →
      cfg.background_color = "#ffffff00") ∧
    (a.background_color ≠ "None" → a.background_color ≠ "none" →
      cfg.background_color = a.background_color) ∧
    (cfg.background_color ≠ "None" ∧ cfg.background_color ≠ "none") := by
  obtain ⟨inp, rfl⟩ := resolveOkShape a cfg h
  have hbgdef : (finishConfig a inp).background_color =
      if a.background_color = "None" || a.background_color = "none" then "#ffffff00"
      else a.background_color := rfl
  refine ⟨?_, ?_, ?_⟩
  · intro hbg
    rw [hbgdef]
    rcases hbg with h1 | h1
    · rw [if_pos (by simp [h1])]
    · rw [if_pos (by simp [h1])]
  · intro h1 h2
    rw [hbgdef, if_neg (by simp [h1, h2])]
  · rw [hbgdef]
    by_cases h1 : a.background_color = "None"
    · rw [if_pos (by simp [h1])]
      exact ⟨by decide, by decide⟩
    · by_cases h2 : a.background_color = "none"
      · rw [if_pos (by simp [h2])]
        exact ⟨by decide, by decide⟩
      · rw [if_neg (by simp [h1, h2])]
        exact ⟨h1, h2⟩

/-- Concrete instance of claim C6 at background None. -/
theorem c6_background_normalization_witness :
    (resolveArgsEv argsBgNone).1
      = Except.ok (finishConfig argsBgNone (InputSource.text "the quick brown fox")) ∧
    (finishConfig argsBgNone
      (InputSource.text "the quick brown fox")).background_color = "#ffffff00" :=
  ⟨by decide, (c6_background_normalization argsBgNone _ (by decide)).1 (Or.inl rfl)⟩

/-- Claim C7: the dash resolves to stdin in any mode containing r, to
stdout in any mode containing w but not r, and otherwise fails with a
ValueError naming the unsupported mode. -/
theorem c7_dash_resolution (fs : FS) (mode : String) :
    (mode.data.contains 'r' = true →
      fileTypeCall fs mode "-" = Except.ok PyStream.stdin) ∧
    (mode.data.contains 'r' = false → mode.data.contains 'w' = true →
      fileTypeCall fs mode "-" = Except.ok PyStream.stdout) ∧
    (mode.data.contains 'r' = false → mode.data.contains 'w' = false →
      fileTypeCall fs mode "-"
        = Except.error (PyErr.valueError ("argument \"-\" with mode " ++ pyRepr mode))) := by
  refine ⟨fun hr => ?_, fun hr hwm => ?_, fun hr hwm => ?_⟩
  · have h1 : 'r' ∈ mode.data := by simpa using hr
    simp [fileTypeCall, h1]
  · have h1 : 'r' ∉ mode.data := by simpa using hr
    have h2 : 'w' ∈ mode.data := by simpa using hwm
    simp [fileTypeCall, h1, h2]
  · have h1 : 'r' ∉ mode.data := by simpa using hr
    have h2 : 'w' ∉ mode.data := by simpa using hwm
    simp [fileTypeCall, h1, h2]

/-- Concrete instance of claim C7 at the three mode shapes. -/
theorem c7_dash_resolution_witness :
    fileTypeCall fsAll "r" "-" = Except.ok PyStream.stdin ∧
    fileTypeCall fsAll "wb" "-" = Except.ok PyStream.stdout ∧
    fileTypeCall fsAll "x" "-"
      = Except.error (PyErr.valueError ("argument \"-\" with mode " ++ pyRepr "x")) :=
  ⟨(c7_dash_resolution fsAll "r").1 (by decide),
   (c7_dash_resolution fsAll "wb").2.1 (by decide) (by decide),
   (c7_dash_resolution fsAll "x").2.2 (by decide) (by decide)⟩

/-- Claim C8 counterexample: a negative count is accepted by parsing, so
the produced mapping is not restricted to non-negative counts. -/
theorem c8_nonneg_counterexample :
    resolveWordlist "a;-3" = Except.ok [("a", -3)] ∧ ((-3 : Int) < 0) := by decide

/-- Claim C8 as amended: counts are arbitrary integers in general, and
every count of the resulting mapping is non-negative provided no count
field of the input starts with a minus sign once stripped. -/
theorem c8_counts_nonneg_when_unsigned (content : String) (pairs : List (String × Int))
    (h : parseWordlist content = Except.ok pairs)
    (hn : ∀ l ∈ pyLines content, countNoMinusB l = true) :
    ∀ p ∈ pyDict pairs, 0 ≤ p.2 := by
  intro p hp
  exact parseLines_nonneg (pyLines content) pairs h hn p (mem_pyDict pairs p hp)

/-- Concrete instance of claim C8 at an unsigned sample. -/
theorem c8_counts_nonneg_witness :
    parseWordlist "a;3\nb;5" = Except.ok [("a", 3), ("b", 5)] ∧
    ∀ p ∈ pyDict [(("a" : String), (3 : Int)), ("b", 5)], 0 ≤ p.2 :=
  ⟨by decide, c8_counts_nonneg_when_unsigned "a;3\nb;5" _ (by decide) (by decide)⟩

/-- Claim C9: in every successfully resolved configuration, the
collocations boolean is the negation of the no-collocations flag. -/
theorem c9_collocations_negation (a : RawArgs) (cfg : ResolvedConfig)
    (h : (resolveArgsEv a).1 = Except.ok cfg) :
    (a.no_collocations = true → cfg.collocations = false) ∧
    (a.no_collocations = false → cfg.collocations = true) := by
  obtain ⟨inp, rfl⟩ := resolveOkShape a cfg h
  constructor <;> intro hv <;> simp [finishConfig, hv]

/-- Concrete instance of claim C9 with the flag present. -/
theorem c9_collocations_negation_witness :
    (resolveArgsEv argsNoColl).1
      = Except.ok (finishConfig argsNoColl (InputSource.text "the quick brown fox")) ∧
    (finishConfig argsNoColl
      (InputSource.text "the quick brown fox")).collocations = false :=
  ⟨by decide, (c9_collocations_negation argsNoColl _ (by decide)).1 rfl⟩

/-- Claim C10: an empty fixed color string is falsy, so it raises no
exclusivity conflict with a colormask, and the resolved strategy is the
image-sampled one when a colormask is present and the random one
otherwise, never the fixed one. -/
theorem c10_empty_color_absent (a : RawArgs) (h : a.color = some "") :
    colorConflict a = false ∧
    ∀ cfg, (resolveArgsEv a).1 = Except.ok cfg →
      (cfg.color_func = (match a.colormask with
        | some p => ColorFunc.imageSampled p
        | none => ColorFunc.random) ∧
      ∀ c, cfg.color_func ≠ ColorFunc.fixed c) := by
  have hcc : colorConflict a = false := by
    simp [colorConflict, pyTruthyOptStr, h]
  refine ⟨hcc, fun cfg hcfg => ?_⟩
  obtain ⟨inp, rfl⟩ := resolveOkShape a cfg hcfg
  have hcf : (finishConfig a inp).color_func = resolveColorFunc a := rfl
  have hval : resolveColorFunc a = (match a.colormask with
      | some p => ColorFunc.imageSampled p
      | none => ColorFunc.random) := by
    simp [resolveColorFunc, h]
  refine ⟨by rw [hcf, hval], fun c => ?_⟩
  rw [hcf, hval]
  cases a.colormask <;> simp

/-- Concrete instance of claim C10: empty color next to a colormask. -/
theorem c10_empty_color_absent_witness :
    colorConflict argsEmptyColor = false ∧
    (resolveArgsEv argsEmptyColor).1
      = Except.ok (finishConfig argsEmptyColor (InputSource.text "the quick brown fox")) ∧
    (finishConfig argsEmptyColor
      (InputSource.text "the quick brown fox")).color_func
        = ColorFunc.imageSampled "cm.png" :=
  ⟨(c10_empty_color_absent argsEmptyColor rfl).1, by decide,
   ((c10_empty_color_absent argsEmptyColor rfl).2 _ (by decide)).1⟩

end WordCloudCli
